import Mathlib

/-!
Verification development for the request-signing auth adapters of the
`dss` monitoring repository (`monitorlib/auth.py`, `messagesigning/hasher.py`).

Strings are embedded as `List Char`, byte sequences as `List Nat`
(each element intended `< 256`).  External cryptographic primitives
(SHA-512 from `hashlib`, RS256 sign/verify from `jwcrypto`, X.509
parsing from `cryptography`) are not repository code; they are taken
as parameters, while all string/byte manipulation performed by the
repository itself is modelled directly.
-/

namespace DSS

abbrev Str := List Char

/-- ASCII whitespace recognised by Python `str.strip` / `bytes.strip`
(Python's `str.strip` additionally strips some non-ASCII Unicode
whitespace, which is irrelevant to the properties proved here). -/
def pyWsChar (c : Char) : Bool :=
  c == ' ' || c == '\t' || c == '\n' || c == '\r' ||
    c == Char.ofNat 11 || c == Char.ofNat 12

/-- ASCII whitespace for `bytes.strip`: `b" \t\n\r\x0b\x0c"`. -/
def pyWsByte (b : Nat) : Bool :=
  b == 32 || b == 9 || b == 10 || b == 13 || b == 11 || b == 12

/-- Python `.strip()` with no argument: drop leading and trailing whitespace. -/
def pyStrip (ws : α → Bool) (s : List α) : List α :=
  ((s.dropWhile ws).reverse.dropWhile ws).reverse

/-- Python `sep.join(xs)` (structurally recursive so it reduces). -/
def pyJoin (sep : Str) : List Str → Str
  | [] => []
  | [x] => x
  | x :: y :: t => x ++ (sep ++ pyJoin sep (y :: t))

/-- UTF-8 encoding of one character (Python `str.encode("utf-8")`). -/
def utf8Char (c : Char) : List Nat :=
  let n := c.toNat
  if n < 128 then [n]
  else if n < 2048 then [192 + n / 64, 128 + n % 64]
  else if n < 65536 then [224 + n / 4096, 128 + (n / 64) % 64, 128 + n % 64]
  else [240 + n / 262144, 128 + (n / 4096) % 64, 128 + (n / 64) % 64, 128 + n % 64]

/-- UTF-8 encoding of a string. -/
def utf8Encode (s : Str) : List Nat :=
  match s with
  | [] => []
  | c :: cs => utf8Char c ++ utf8Encode cs

/-- The standard base64 alphabet. -/
def b64Alphabet : Str :=
  ("ABCDEFGHIJKLMNOPQRSTUVWXYZabcdefghijklmnopqrstuvwxyz0123456789+/").data

/-- The base64url alphabet (RFC 4648 §5). -/
def b64uAlphabet : Str :=
  ("ABCDEFGHIJKLMNOPQRSTUVWXYZabcdefghijklmnopqrstuvwxyz0123456789-_").data

def b64Char (i : Nat) : Char := b64Alphabet.getD i 'A'

def b64uChar (i : Nat) : Char := b64uAlphabet.getD i 'A'

/-- Standard padded base64 encoding (Python `base64.b64encode`). -/
def b64encode : List Nat → Str
  | [] => []
  | [a] => [b64Char (a / 4), b64Char (a % 4 * 16), '=', '=']
  | [a, b] => [b64Char (a / 4), b64Char (a % 4 * 16 + b / 16), b64Char (b % 16 * 4), '=']
  | a :: b :: c :: rest =>
    b64Char (a / 4) :: b64Char (a % 4 * 16 + b / 16) ::
      b64Char (b % 16 * 4 + c / 64) :: b64Char (c % 64) :: b64encode rest

/-- Unpadded base64url encoding as used by `jwcrypto` for JWS segments. -/
def b64urlEncode : List Nat → Str
  | [] => []
  | [a] => [b64uChar (a / 4), b64uChar (a % 4 * 16)]
  | [a, b] => [b64uChar (a / 4), b64uChar (a % 4 * 16 + b / 16), b64uChar (b % 16 * 4)]
  | a :: b :: c :: rest =>
    b64uChar (a / 4) :: b64uChar (a % 4 * 16 + b / 16) ::
      b64uChar (b % 16 * 4 + c / 64) :: b64uChar (c % 64) :: b64urlEncode rest

/-- Decimal digit character. -/
def digitChar : Nat → Char
  | 0 => '0' | 1 => '1' | 2 => '2' | 3 => '3' | 4 => '4'
  | 5 => '5' | 6 => '6' | 7 => '7' | 8 => '8' | 9 => '9'
  | _ => '0'

/-- Fuel-driven decimal printer (structural recursion so that the kernel
can evaluate it). -/
def natToDecAux : Nat → Nat → Str
  | 0, _ => []
  | fuel + 1, n =>
    if n < 10 then [digitChar n]
    else natToDecAux fuel (n / 10) ++ [digitChar (n % 10)]

/-- Decimal rendering of a natural number, as Python `str(int)` on
non-negative values. -/
def natToDec (n : Nat) : Str := natToDecAux (n + 1) n

/-- A Python value passed to `get_content_digest`: `None`, a `str`, or `bytes`. -/
inductive Payload where
  | none : Payload
  | str : Str → Payload
  | bytes : List Nat → Payload
deriving DecidableEq

/-- `monitoring/messagesigning/hasher.py`, `get_content_digest`:

```
def get_content_digest(payload):
  type_of_payload = str(type(payload))
  if payload:
    payload = payload.strip()
    if type_of_payload != "<class 'bytes'>":
      payload = payload.encode('utf-8')
    if payload == bytes('""', 'utf-8'):
      payload = bytes()
  else:
    payload = bytes()
  hash_val = base64.b64encode(hashlib.sha512(payload).digest()).decode('utf-8')
  return hash_val
```

`sha512` is `hashlib.sha512(...).digest()`, an external primitive. -/
def get_content_digest (sha512 : List Nat → List Nat) (payload : Payload) : Str :=
  let normalized : List Nat :=
    match payload with
    | .none => []
    | .str s =>
      if s = [] then []
      else
        let stripped := utf8Encode (pyStrip pyWsChar s)
        if stripped = [34, 34] then [] else stripped
    | .bytes b =>
      if b = [] then []
      else
        let stripped := pyStrip pyWsByte b
        if stripped = [34, 34] then [] else stripped
  b64encode (sha512 normalized)

/-- Normalization as the specification words it (§4.1): trim whitespace,
treat an absent payload as empty bytes, and treat a payload whose trimmed
value is the two-character literal `""` as empty bytes.  Stated
independently of the source so the two can be compared. -/
def specNormalize : Payload → List Nat
  | .none => []
  | .str s =>
    let t := pyStrip pyWsChar s
    if t = ['"', '"'] then [] else utf8Encode t
  | .bytes b =>
    let t := pyStrip pyWsByte b
    if t = [34, 34] then [] else t

/-! ## `monitorlib/auth.py`: errors, signer, signature conventions -/

/-- Python exceptions raised by `auth.py`: `AccessTokenError` (with its
message), `jwcrypto.jws.InvalidJWSSignature` (raised by
`JWA.signing_alg("RS256").verify` and left uncaught in `_make_signature`),
and `ValueError`. -/
inductive Err where
  | accessTokenError (msg : Str) : Err
  | invalidJWSSignature : Err
  | valueError (msg : Str) : Err
deriving DecidableEq

/-- The external RS256 primitive of `jwcrypto` over a fixed key pair:
`sign` uses the private JWK, `verify` the public JWK (`verify` is `true`
exactly when the library accepts the signature). -/
structure SigScheme where
  sign : List Nat → List Nat
  verify : List Nat → List Nat → Bool

/-- The `token_headers` object `{typ, alg, x5u, kid}` built in `issue_token`. -/
structure TokenHeaders where
  typ : Str
  alg : Str
  x5u : Str
  kid : Str
deriving DecidableEq

/-- JWS signing input `b64url(protected) . b64url(payload)` as produced by
`jwcrypto.jws.JWS.add_signature` for a compact serialization. -/
def jwsSigningInput (protectedJson payload : Str) : Str :=
  b64urlEncode (utf8Encode protectedJson) ++ ('.' :: b64urlEncode (utf8Encode payload))

/-- `auth.py` `_make_jws`: create the compact JWS
`b64url(header).b64url(payload).b64url(sig)`, then immediately re-verify it
against the public key; on verification failure raise `AccessTokenError`. -/
def _make_jws (scheme : SigScheme) (protectedJson payload : Str) : Except Err Str :=
  let si := jwsSigningInput protectedJson payload
  let sig := scheme.sign (utf8Encode si)
  if scheme.verify (utf8Encode si) sig then .ok (si ++ ('.' :: b64urlEncode sig))
  else .error (.accessTokenError
    ("Could not construct a valid cryptographic signature for JWS").data)

/-- `auth.py` `_make_signature`: raw RS256 signature of the payload,
immediately verified (the library raises `InvalidJWSSignature` on failure),
then base64-encoded with the standard padded alphabet. -/
def _make_signature (scheme : SigScheme) (payload : Str) : Except Err Str :=
  let payloadBytes := utf8Encode payload
  let sig := scheme.sign payloadBytes
  if scheme.verify payloadBytes sig then .ok (b64encode sig)
  else .error .invalidJWSSignature

/-- Scan for the next `'.'`; on success return the remainder after it.
Used to model the regex fragment `[^.]*\.` of `re.sub(r"\.[^.]*\.", "..", s)`. -/
def findCloseDot : Str → Option Str
  | [] => Option.none
  | c :: cs => if c = '.' then Option.some cs else findCloseDot cs

/-- Left-to-right scan of `re.sub(r"\.[^.]*\.", "..", s)`: at a `'.'`,
greedily consume non-dots up to a closing `'.'` and emit `".."`, resuming
after the match; otherwise copy the character.  Fuel-driven so the
recursion is structural (the fuel is the string length, always enough). -/
def reSubAux : Nat → Str → Str
  | 0, s => s
  | _ + 1, [] => []
  | fuel + 1, c :: cs =>
    if c = '.' then
      match findCloseDot cs with
      | Option.some rest => '.' :: '.' :: reSubAux fuel rest
      | Option.none => c :: reSubAux fuel cs
    else c :: reSubAux fuel cs

/-- `re.sub(r"\.[^.]*\.", "..", s)` from the UPP2 branch of `issue_token`. -/
def reSubDetach (s : Str) : Str := reSubAux s.length s

/-- Split a string on a separator character (used to model how a compact
JWS string decomposes into segments). -/
def splitOnChar (sep : Char) : Str → List Str
  | [] => [[]]
  | c :: cs =>
    if c = sep then [] :: splitOnChar sep cs
    else
      match splitOnChar sep cs with
      | [] => [[c]]
      | s :: ss => (c :: s) :: ss

/-! ## `urllib.parse.urlparse(...).path` -/

/-- CPython `urlsplit` preprocessing: lstrip C0-control/space, then remove
every tab, carriage return and newline. -/
def urlPreprocess (s : Str) : Str :=
  (s.dropWhile fun c => decide (c.toNat ≤ 32)).filter
    fun c => c != '\t' && c != '\r' && c != '\n'

/-- Characters allowed in a URL scheme. -/
def schemeChar (c : Char) : Bool :=
  c.isAlpha || c.isDigit || c == '+' || c == '-' || c == '.'

/-- Drop a leading `scheme:` when the part before the first `':'` is a
non-empty valid scheme beginning with an ASCII letter. -/
def splitSchemeRest (s : Str) : Str :=
  let pre := s.takeWhile fun c => c != ':'
  match s.dropWhile (fun c => c != ':') with
  | [] => s
  | _ :: tl => if (pre.headD ' ').isAlpha && pre.all schemeChar then tl else s

/-- Drop a leading `//netloc` (the netloc extends to the first `/`, `?`
or `#`, which is kept). -/
def dropNetloc (s : Str) : Str :=
  match s with
  | a :: b :: rest =>
    if a = '/' ∧ b = '/' then rest.dropWhile fun c => c != '/' && c != '?' && c != '#'
    else s
  | _ => s

/-- Keep everything before the first `'#'`. -/
def stripFragment (s : Str) : Str := s.takeWhile fun c => c != '#'

/-- Keep everything before the first `'?'`. -/
def stripQuery (s : Str) : Str := s.takeWhile fun c => c != '?'

/-- Path component of `urllib.parse.urlsplit`. -/
def urlsplitPath (url : Str) : Str :=
  stripQuery (stripFragment (dropNetloc (splitSchemeRest (urlPreprocess url))))

/-- CPython `_splitparams`: remove `;params` from the last path segment
(`urlparse` applies this on top of `urlsplit`). -/
def splitParamsPath (p : Str) : Str :=
  if p.contains '/' then
    (p.reverse.dropWhile fun c => c != '/').reverse ++
      ((p.reverse.takeWhile fun c => c != '/').reverse.takeWhile fun c => c != ';')
  else p.takeWhile fun c => c != ';'

/-- `urllib.parse.urlparse(url).path`. -/
def urlparsePath (url : Str) : Str := splitParamsPath (urlsplitPath url)

/-! ## `SignedRequest.issue_token`: request body and header construction -/

/-- The ordered `query` dict of `issue_token`: field order is the
insertion order `grant_type, client_id, scope, resource,
current_timestamp`; `nowIso` stands for `datetime.utcnow().isoformat()`. -/
def tokenRequestQuery (client_id : Str) (scopes : List Str) (resource nowIso : Str) :
    List (Str × Str) :=
  [("grant_type".data, "client_credentials".data),
   ("client_id".data, client_id),
   ("scope".data, pyJoin " ".data scopes),
   ("resource".data, resource),
   ("current_timestamp".data, nowIso ++ "Z".data)]

/-- `payload = "&".join([k + "=" + v for k, v in query.items()])`. -/
def mkPayload (client_id : Str) (scopes : List Str) (resource nowIso : Str) : Str :=
  pyJoin "&".data ((tokenRequestQuery client_id scopes resource nowIso).map
    fun kv => kv.1 ++ ("=".data ++ kv.2))

/-- `", ".join('{}="{}"'.format(k, v) for k, v in token_headers.items())`. -/
def jwsHeaderValue (th : TokenHeaders) : Str :=
  pyJoin ", ".data
    [ "typ=\"".data ++ (th.typ ++ "\"".data),
      "alg=\"".data ++ (th.alg ++ "\"".data),
      "x5u=\"".data ++ (th.x5u ++ "\"".data),
      "kid=\"".data ++ (th.kid ++ "\"".data) ]

/-- The `components` list of the UFT branch (before `@signature-params`
is appended). -/
def uftComponents : List Str :=
  ["@method".data, "@path".data, "@query".data, "authorization".data,
   "content-type".data, "content-digest".data, "x-utm-jws-header".data]

/-- `" ".join('"{}"'.format(c) for c in components)`. -/
def uftQuotedComponents : Str :=
  pyJoin " ".data (uftComponents.map fun c => "\"".data ++ (c ++ "\"".data))

/-- `"({});created={}".format(..., int(utcnow().timestamp()))`. -/
def uftSignatureParams (created : Nat) : Str :=
  "(".data ++ (uftQuotedComponents ++ (");created=".data ++ natToDec created))

/-- The inline digest of the UFT branch:
`base64.b64encode(hashlib.sha512(payload.encode("utf-8")).digest()).decode("utf-8")`. -/
def inlineContentDigest (sha512 : List Nat → List Nat) (payload : Str) : Str :=
  b64encode (sha512 (utf8Encode payload))

/-- The `signature_content` dict of the UFT branch, as a lookup function. -/
def uftSignatureContent (path contentDigest : Str) (th : TokenHeaders) (created : Nat)
    (c : Str) : Str :=
  if c = "@method".data then "POST".data
  else if c = "@path".data then path
  else if c = "@query".data then "?".data
  else if c = "authorization".data then []
  else if c = "content-type".data then "application/x-www-form-urlencoded".data
  else if c = "content-digest".data then "sha-512=:".data ++ (contentDigest ++ ":".data)
  else if c = "x-utm-jws-header".data then jwsHeaderValue th
  else if c = "@signature-params".data then uftSignatureParams created
  else []

/-- `components` after `components.append("@signature-params")`. -/
def uftAllComponents : List Str := uftComponents ++ ["@signature-params".data]

/-- `"\n".join('"{}": {}'.format(c, signature_content[c]) for c in comps)`,
parameterized by the component order to express order sensitivity. -/
def uftBaseFor (content : Str → Str) (comps : List Str) : Str :=
  pyJoin "\n".data (comps.map fun c => "\"".data ++ (c ++ ("\": ".data ++ content c)))

/-- The `signature_base` string of the UFT branch: one `"name": value`
line per component, newline-joined, in the fixed component order. -/
def uftSignatureBase (path contentDigest : Str) (th : TokenHeaders) (created : Nat) : Str :=
  uftBaseFor (uftSignatureContent path contentDigest th created) uftAllComponents

/-- The UFT request headers: non-`@` components in dict order, then the
signature and signature-input headers. -/
def uftHeaders (content : Str → Str) (signatureB64 : Str) : List (Str × Str) :=
  [("authorization".data, content "authorization".data),
   ("content-type".data, content "content-type".data),
   ("content-digest".data, content "content-digest".data),
   ("x-utm-jws-header".data, content "x-utm-jws-header".data),
   ("x-utm-message-signature".data,
     "utm-message-signature=:".data ++ (signatureB64 ++ ":".data)),
   ("x-utm-message-signature-input".data,
     "utm-message-signature=".data ++ content "@signature-params".data)]

/-- The outgoing request assembled by `issue_token` before the HTTP POST:
the literal body string and the header list. -/
structure PreparedRequest where
  body : Str
  headers : List (Str × Str)
deriving DecidableEq

/-- The fields a constructed `SignedRequest` adapter carries (the two JWKs
are modelled as opaque byte strings; the RS256 operations over them enter
through `SigScheme`). -/
structure AdapterState where
  token_endpoint : Str
  client_id : Str
  cert_url : Str
  signature_style : Str
  priv : List Nat
  pub : List Nat
  kid : Str
deriving DecidableEq

/-- Per-call inputs of `issue_token` together with the wall-clock readings
(`nowIso` is `datetime.utcnow().isoformat()`, `created` is
`int(datetime.utcnow().timestamp())`). -/
structure CallInputs where
  intended_audience : Str
  scopes : List Str
  nowIso : Str
  created : Nat
deriving DecidableEq

/-- Lines 306-383 of `auth.py`: build the request body and the signing
headers for the configured signature style.  `jsonEnc` stands for
`jwcrypto.common.json_encode` applied to the `token_headers` dict. -/
def prepareRequest (scheme : SigScheme) (jsonEnc : TokenHeaders → Str)
    (sha512 : List Nat → List Nat) (st : AdapterState) (ci : CallInputs) :
    Except Err PreparedRequest :=
  let payload := mkPayload st.client_id ci.scopes ci.intended_audience ci.nowIso
  let th : TokenHeaders := ⟨"JOSE".data, "RS256".data, st.cert_url, st.kid⟩
  if st.signature_style = "UPP2".data then
    match _make_jws scheme (jsonEnc th) payload with
    | .error e => .error e
    | .ok signed =>
      .ok ⟨payload,
        [("Content-Type".data, "application/x-www-form-urlencoded".data),
         ("x-utm-message-signature".data, reSubDetach signed)]⟩
  else if st.signature_style = "UFT".data then
    let contentDigest := inlineContentDigest sha512 payload
    let path := urlparsePath st.token_endpoint
    let content := uftSignatureContent path contentDigest th ci.created
    match _make_signature scheme (uftBaseFor content uftAllComponents) with
    | .error e => .error e
    | .ok sigB64 => .ok ⟨payload, uftHeaders content sigB64⟩
  else .error (.valueError ("Invalid signature style").data)

/-- The HTTP response of the token endpoint as seen by `issue_token`
(`content` is the body decoded as UTF-8). -/
structure HttpResponse where
  status_code : Nat
  content : Str
  url : Str
deriving DecidableEq

/-- The `AccessTokenError` message format of `SignedRequest.issue_token`. -/
def signedRequestErrMsg (resp : HttpResponse) : Str :=
  "Request to get SignedRequest access token returned ".data ++
    (natToDec resp.status_code ++
      (" \"".data ++ (resp.content ++ ("\" at ".data ++ resp.url))))

/-- `SignedRequest.issue_token` end to end: prepare the signed request,
perform the POST (whose outcome is the given `resp`), and parse the
response.  `jsonAccessToken` stands for `response.json()["access_token"]`,
which may itself fail for malformed JSON. -/
def issue_token (scheme : SigScheme) (jsonEnc : TokenHeaders → Str)
    (sha512 : List Nat → List Nat) (st : AdapterState) (ci : CallInputs)
    (resp : HttpResponse) (jsonAccessToken : Str → Except Err Str) : Except Err Str :=
  match prepareRequest scheme jsonEnc sha512 st ci with
  | .error e => .error e
  | .ok _ =>
    if resp.status_code ≠ 200 then .error (.accessTokenError (signedRequestErrMsg resp))
    else jsonAccessToken resp.content

/-! ## `_load_keypair` and `SignedRequest.__init__` -/

/-- External `cryptography`/`jwcrypto` operations used by `_load_keypair`:
extracting the SubjectPublicKeyInfo PEM bytes from a DER or PEM
certificate, deriving the public key PEM from a private key PEM, parsing
a PEM into a JWK, and the JWK thumbprint. -/
structure CryptoLib where
  loadDerCertPub : List Nat → List Nat
  loadPemCertPub : List Nat → List Nat
  derivePublicPem : List Nat → List Nat
  jwkFromPem : List Nat → List Nat
  thumbprint : List Nat → Str

/-- Python `s[-4:].lower()`. -/
def lower4 (s : Str) : Str := (s.drop (s.length - 4)).map Char.toLower

/-- `auth.py` `_load_keypair`: fetch the certificate (its body is
`certContent`; the 200-status assertion is outside the model), extract its
public key according to the URL extension, read and parse the private key
file (`keyContent`), derive its public key, and require the two public
keys to be byte-for-byte equal before returning the JWK pair. -/
def _load_keypair (lib : CryptoLib) (key_path cert_url : Str)
    (certContent keyContent : List Nat) : Except Err (List Nat × List Nat) :=
  match (if lower4 cert_url = ".der".data then Option.some (lib.loadDerCertPub certContent)
         else if lower4 cert_url = ".crt".data then Option.some (lib.loadPemCertPub certContent)
         else Option.none) with
  | Option.none => .error (.accessTokenError ("cert_url must end with .der or .crt").data)
  | Option.some certPublicKey =>
    if lower4 key_path = ".key".data ∨ lower4 key_path = ".pem".data then
      let publicKey := lib.derivePublicPem keyContent
      if certPublicKey ≠ publicKey then
        .error (.accessTokenError
          ("Public key in certificate does not match private key provided").data)
      else .ok (lib.jwkFromPem keyContent, lib.jwkFromPem publicKey)
    else .error (.accessTokenError ("key_path must end with .key or .pem").data)

/-- `SignedRequest.__init__`: validate the signature style, load and
cross-validate the key pair, and assign the key ID (caller-supplied if
truthy, else the public JWK thumbprint). -/
def signedRequestInit (lib : CryptoLib) (token_endpoint client_id key_path cert_url : Str)
    (key_id : Option Str) (signature_style : Str) (certContent keyContent : List Nat) :
    Except Err AdapterState :=
  if signature_style ≠ "UPP2".data ∧ signature_style ≠ "UFT".data then
    .error (.valueError ("signature_style must be either UPP2 or UFT").data)
  else
    match _load_keypair lib key_path cert_url certContent keyContent with
    | .error e => .error e
    | .ok (priv, pub) =>
      let kid := match key_id with
        | Option.none => lib.thumbprint pub
        | Option.some k => if k = [] then lib.thumbprint pub else k
      .ok ⟨token_endpoint, client_id, cert_url, signature_style, priv, pub, kid⟩

/-! ## Spec-side definition for the body-serialization refinement claim -/

/-- Uppercase hexadecimal digit. -/
def hexUpper : Nat → Char
  | 0 => '0' | 1 => '1' | 2 => '2' | 3 => '3' | 4 => '4'
  | 5 => '5' | 6 => '6' | 7 => '7' | 8 => '8' | 9 => '9'
  | 10 => 'A' | 11 => 'B' | 12 => 'C' | 13 => 'D' | 14 => 'E' | 15 => 'F'
  | _ => '0'

/-- Percent-encoding of one byte. -/
def percentEncodeByte (b : Nat) : Str := ['%', hexUpper (b / 16), hexUpper (b % 16)]

/-- `urllib.parse.quote_plus` on one character: space becomes `+`,
alphanumerics and `_.-~` stay, everything else is percent-encoded. -/
def quotePlusChar (c : Char) : Str :=
  if c = ' ' then ['+']
  else if c.isAlphanum || c == '_' || c == '.' || c == '-' || c == '~' then [c]
  else (utf8Char c).flatMap percentEncodeByte

/-- `quote_plus` over a string. -/
def quotePlus (s : Str) : Str := s.flatMap quotePlusChar

/-- Modelled from the spec: the `application/x-www-form-urlencoded`
serialization of an ordered field list (spec §6 "body is
application/x-www-form-urlencoded serialization of TokenRequestParameters,
field order preserved"), i.e. `quote_plus(k)=quote_plus(v)` pairs joined
with `&`.  Stated from the spec's words so it can be compared with the
serialization the code actually performs (`mkPayload`). -/
def formUrlEncode (fields : List (Str × Str)) : Str :=
  pyJoin "&".data (fields.map fun kv => quotePlus kv.1 ++ ("=".data ++ quotePlus kv.2))

/-- Association-list lookup over the prepared header list. -/
def lookupHdr (hs : List (Str × Str)) (k : Str) : Option Str :=
  match hs with
  | [] => Option.none
  | (k2, v) :: t => if k2 = k then Option.some v else lookupHdr t k

/-! ## Concrete fixtures used to instantiate the theorems -/

/-- A trivially accepting signing primitive (stands for a healthy key pair). -/
def scheme0 : SigScheme := ⟨fun _ => [], fun _ _ => true⟩

/-- A signing primitive whose self-verification always fails
(stands for a defective key pair). -/
def schemeBad : SigScheme := ⟨fun _ => [], fun _ _ => false⟩

def jsonEnc0 : TokenHeaders → Str := fun _ => "j".data

def sha0 : List Nat → List Nat := fun _ => []

def st0 : AdapterState :=
  ⟨"https://a/b".data, "c".data, "https://c/x.der".data, "UPP2".data, [], [], "k".data⟩

def stUft0 : AdapterState :=
  ⟨"https://a/b".data, "c".data, "https://c/x.der".data, "UFT".data, [], [], "k".data⟩

def ci0 : CallInputs := ⟨"aud".data, ["read".data, "write".data], "T1".data, 7⟩

def resp401 : HttpResponse :=
  ⟨401, "\x7b\"error\":\"invalid_client\"\x7d".data, "https://a/b".data⟩

def jsonTok0 : Str → Except Err Str := fun _ => .ok "abc123".data

/-- Crypto operations under which the certificate key and the derived key
disagree. -/
def libMismatch : CryptoLib :=
  ⟨fun _ => [1], fun _ => [2], fun _ => [3], fun x => x, fun _ => "tp".data⟩

/-- Crypto operations under which the certificate key and the derived key
agree (for `.der` certificate URLs). -/
def libMatch : CryptoLib :=
  ⟨fun _ => [3], fun _ => [2], fun _ => [3], fun x => x, fun _ => "tp".data⟩

/-- The request `prepareRequest` produces on the UPP2 fixtures. -/
def prUpp0 : PreparedRequest :=
  match prepareRequest scheme0 jsonEnc0 sha0 st0 ci0 with
  | .ok pr => pr
  | .error _ => ⟨[], []⟩

/-- The request `prepareRequest` produces on the UFT fixtures. -/
def prUft0 : PreparedRequest :=
  match prepareRequest scheme0 jsonEnc0 sha0 stUft0 ci0 with
  | .ok pr => pr
  | .error _ => ⟨[], []⟩

def th0 : TokenHeaders := ⟨("JOSE").data, ("RS256").data, st0.cert_url, st0.kid⟩

def hdrSeg0 : Str := b64urlEncode (utf8Encode (jsonEnc0 th0))

def midSeg0 : Str := b64urlEncode (utf8Encode prUpp0.body)

def sigSeg0 : Str := b64urlEncode (scheme0.sign (utf8Encode (hdrSeg0 ++ ('.' :: midSeg0))))

/-! ## Generic list lemmas -/

theorem append_sentinel_inj {α : Type _} (sep : α) :
    ∀ (a b r1 r2 : List α), sep ∉ a → sep ∉ b →
      a ++ sep :: r1 = b ++ sep :: r2 → a = b ∧ r1 = r2 := by
  intro a
  induction a with
  | nil =>
    intro b r1 r2 _ hb h
    cases b with
    | nil => simpa using h
    | cons x xs =>
      simp only [List.nil_append, List.cons_append, List.cons.injEq] at h
      exact absurd (h.1 ▸ List.mem_cons_self x xs) hb
  | cons x xs ih =>
    intro b r1 r2 ha hb h
    cases b with
    | nil =>
      simp only [List.nil_append, List.cons_append, List.cons.injEq] at h
      exact absurd (h.1.symm ▸ List.mem_cons_self x xs) ha
    | cons y ys =>
      simp only [List.cons_append, List.cons.injEq] at h
      obtain ⟨hxy, h2⟩ := h
      have := ih ys r1 r2 (fun hm => ha (List.mem_cons_of_mem x hm))
        (fun hm => hb (List.mem_cons_of_mem y hm)) h2
      exact ⟨by rw [hxy, this.1], this.2⟩

theorem pyJoin_cons_cons (s : Str) (a b : Str) (t : List Str) :
    pyJoin s (a :: b :: t) = a ++ (s ++ pyJoin s (b :: t)) := rfl

theorem pyJoin_sep_inj (sep : Char) :
    ∀ (l1 l2 : List Str), (∀ x ∈ l1, sep ∉ x) → (∀ x ∈ l2, sep ∉ x) →
      l1.length = l2.length →
      pyJoin [sep] l1 = pyJoin [sep] l2 → l1 = l2 := by
  intro l1
  induction l1 with
  | nil =>
    intro l2 _ _ hlen _
    cases l2 with
    | nil => rfl
    | cons b t2 => simp at hlen
  | cons a t1 ih =>
    intro l2 h1 h2 hlen heq
    cases l2 with
    | nil => simp at hlen
    | cons b t2 =>
      cases t1 with
      | nil =>
        cases t2 with
        | nil => simpa [pyJoin] using heq
        | cons d t2x => simp at hlen
      | cons c t1x =>
        cases t2 with
        | nil => simp at hlen
        | cons d t2x =>
          rw [pyJoin_cons_cons, pyJoin_cons_cons] at heq
          have heqx : a ++ sep :: pyJoin [sep] (c :: t1x) =
              b ++ sep :: pyJoin [sep] (d :: t2x) := by
            simpa [List.append_assoc] using heq
          obtain ⟨hab, ht⟩ := append_sentinel_inj sep a b _ _
            (h1 a (List.mem_cons_self a _)) (h2 b (List.mem_cons_self b _)) heqx
          have htail := ih (d :: t2x) (fun x hx => h1 x (List.mem_cons_of_mem a hx))
            (fun x hx => h2 x (List.mem_cons_of_mem b hx)) (by simpa using hlen) ht
          rw [hab, htail]

theorem map_inj_on {α β : Type _} (f : α → β) (P : α → Prop)
    (hf : ∀ x y, P x → P y → f x = f y → x = y) :
    ∀ l1 l2 : List α, (∀ x ∈ l1, P x) → (∀ x ∈ l2, P x) → l1.map f = l2.map f → l1 = l2 := by
  intro l1
  induction l1 with
  | nil =>
    intro l2 _ _ h
    cases l2 with
    | nil => rfl
    | cons y ys => simp at h
  | cons x xs ih =>
    intro l2 h1 h2 h
    cases l2 with
    | nil => simp at h
    | cons y ys =>
      simp only [List.map_cons, List.cons.injEq] at h
      have hxy := hf x y (h1 x (List.mem_cons_self x _)) (h2 y (List.mem_cons_self y _)) h.1
      have := ih ys (fun z hz => h1 z (List.mem_cons_of_mem x hz))
        (fun z hz => h2 z (List.mem_cons_of_mem y hz)) h.2
      rw [hxy, this]

theorem getD_mem_or {α : Type _} [Inhabited α] (l : List α) (i : Nat) (d : α) :
    l.getD i d ∈ l ∨ l.getD i d = d := by
  rcases h : l.get? i with _ | x
  · right; simp [List.getD_eq_getElem?_getD, ← List.get?_eq_getElem?, h]
  · left
    have hm := List.get?_mem h
    simpa [List.getD_eq_getElem?_getD, ← List.get?_eq_getElem?, h] using hm

/-! ## Lemmas on Python strip -/

theorem dropWhile_idem {α : Type _} (p : α → Bool) (l : List α) :
    (l.dropWhile p).dropWhile p = l.dropWhile p := by
  induction l with
  | nil => rfl
  | cons x xs ih =>
    by_cases h : p x
    · simp [List.dropWhile_cons, h, ih]
    · simp [List.dropWhile_cons, h]

theorem dropWhile_shape {α : Type _} (p : α → Bool) (l : List α) :
    l.dropWhile p = [] ∨ ∃ a t, l.dropWhile p = a :: t ∧ p a = false := by
  induction l with
  | nil => left; rfl
  | cons x xs ih =>
    by_cases h : p x
    · simpa [List.dropWhile_cons, h] using ih
    · right; exact ⟨x, xs, by simp [List.dropWhile_cons, h], by simpa using h⟩

theorem pyStrip_nil (ws : α → Bool) : pyStrip ws [] = [] := rfl

theorem pyStrip_shape (ws : α → Bool) (s : List α) :
    pyStrip ws s = [] ∨
      (∃ a, pyStrip ws s = [a] ∧ ws a = false) ∨
      (∃ a mid b, pyStrip ws s = a :: (mid ++ [b]) ∧ ws a = false ∧ ws b = false) := by
  unfold pyStrip
  rcases dropWhile_shape ws s with h | ⟨a, t, h, ha⟩
  · left; simp [h]
  · rw [h]
    have hrev : (a :: t).reverse = t.reverse ++ [a] := by simp
    rw [hrev, List.dropWhile_append]
    by_cases he : (t.reverse.dropWhile ws).isEmpty
    · right; left
      refine ⟨a, ?_, ha⟩
      simp [he, List.dropWhile_cons, ha]
    · rcases dropWhile_shape ws t.reverse with h2 | ⟨c, u, h2, hc⟩
      · rw [h2] at he; simp at he
      · right; right
        refine ⟨a, u.reverse, c, ?_, ha, hc⟩
        simp [he, h2]

theorem pyStrip_noop_singleton (ws : α → Bool) (a : α) (ha : ws a = false) :
    pyStrip ws [a] = [a] := by
  simp [pyStrip, List.dropWhile_cons, ha]

theorem pyStrip_noop_cons_concat (ws : α → Bool) (a b : α) (mid : List α)
    (ha : ws a = false) (hb : ws b = false) :
    pyStrip ws (a :: (mid ++ [b])) = a :: (mid ++ [b]) := by
  unfold pyStrip
  have h1 : (a :: (mid ++ [b])).dropWhile ws = a :: (mid ++ [b]) := by
    simp [List.dropWhile_cons, ha]
  rw [h1]
  have h2 : (a :: (mid ++ [b])).reverse = b :: (mid.reverse ++ [a]) := by simp
  rw [h2]
  have h3 : (b :: (mid.reverse ++ [a])).dropWhile ws = b :: (mid.reverse ++ [a]) := by
    simp [List.dropWhile_cons, hb]
  rw [h3, ← h2, List.reverse_reverse]

theorem pyStrip_idem (ws : α → Bool) (s : List α) :
    pyStrip ws (pyStrip ws s) = pyStrip ws s := by
  rcases pyStrip_shape ws s with h | ⟨a, h, ha⟩ | ⟨a, mid, b, h, ha, hb⟩
  · rw [h]; rfl
  · rw [h]; exact pyStrip_noop_singleton ws a ha
  · rw [h]; exact pyStrip_noop_cons_concat ws a b mid ha hb

/-! ## Character-set lemmas for the encoders -/

theorem b64Char_mem (i : Nat) : b64Char i ∈ b64Alphabet := by
  rcases getD_mem_or b64Alphabet i 'A' with h | h
  · exact h
  · rw [b64Char, h]; decide

theorem b64uChar_mem (i : Nat) : b64uChar i ∈ b64uAlphabet := by
  rcases getD_mem_or b64uAlphabet i 'A' with h | h
  · exact h
  · rw [b64uChar, h]; decide

theorem mem_b64encode : ∀ (bs : List Nat) (c : Char),
    c ∈ b64encode bs → c ∈ b64Alphabet ∨ c = '='
  | [], c, h => by simp [b64encode] at h
  | [a], c, h => by
    simp only [b64encode, List.mem_cons, List.not_mem_nil, or_false] at h
    rcases h with h | h | h | h <;> subst h
    · exact Or.inl (b64Char_mem _)
    · exact Or.inl (b64Char_mem _)
    · exact Or.inr rfl
    · exact Or.inr rfl
  | [a, b], c, h => by
    simp only [b64encode, List.mem_cons, List.not_mem_nil, or_false] at h
    rcases h with h | h | h | h <;> subst h
    · exact Or.inl (b64Char_mem _)
    · exact Or.inl (b64Char_mem _)
    · exact Or.inl (b64Char_mem _)
    · exact Or.inr rfl
  | a :: b :: d :: rest, c, h => by
    simp only [b64encode, List.mem_cons] at h
    rcases h with h | h | h | h | h
    · exact h ▸ Or.inl (b64Char_mem _)
    · exact h ▸ Or.inl (b64Char_mem _)
    · exact h ▸ Or.inl (b64Char_mem _)
    · exact h ▸ Or.inl (b64Char_mem _)
    · exact mem_b64encode rest c h

theorem mem_b64urlEncode : ∀ (bs : List Nat) (c : Char),
    c ∈ b64urlEncode bs → c ∈ b64uAlphabet
  | [], c, h => by simp [b64urlEncode] at h
  | [a], c, h => by
    simp only [b64urlEncode, List.mem_cons, List.not_mem_nil, or_false] at h
    rcases h with h | h <;> exact h ▸ b64uChar_mem _
  | [a, b], c, h => by
    simp only [b64urlEncode, List.mem_cons, List.not_mem_nil, or_false] at h
    rcases h with h | h | h <;> exact h ▸ b64uChar_mem _
  | a :: b :: d :: rest, c, h => by
    simp only [b64urlEncode, List.mem_cons] at h
    rcases h with h | h | h | h | h
    · exact h ▸ b64uChar_mem _
    · exact h ▸ b64uChar_mem _
    · exact h ▸ b64uChar_mem _
    · exact h ▸ b64uChar_mem _
    · exact mem_b64urlEncode rest c h

theorem dot_not_mem_b64urlEncode (bs : List Nat) : '.' ∉ b64urlEncode bs := by
  intro h
  have := mem_b64urlEncode bs '.' h
  revert this
  decide

theorem newline_not_mem_b64encode (bs : List Nat) : '\n' ∉ b64encode bs := by
  intro h
  rcases mem_b64encode bs '\n' h with h2 | h2
  · revert h2; decide
  · exact absurd h2 (by decide)

theorem digitChar_mem (d : Nat) : digitChar d ∈ ("0123456789").data := by
  unfold digitChar
  split <;> decide

theorem mem_natToDecAux : ∀ (fuel n : Nat) (c : Char),
    c ∈ natToDecAux fuel n → c ∈ ("0123456789").data
  | 0, n, c, h => by simp [natToDecAux] at h
  | fuel + 1, n, c, h => by
    rw [natToDecAux] at h
    by_cases hn : n < 10
    · rw [if_pos hn] at h
      simp only [List.mem_singleton] at h
      exact h ▸ digitChar_mem n
    · rw [if_neg hn] at h
      rcases List.mem_append.mp h with h2 | h2
      · exact mem_natToDecAux fuel (n / 10) c h2
      · simp only [List.mem_singleton] at h2
        exact h2 ▸ digitChar_mem (n % 10)

theorem newline_not_mem_natToDec (n : Nat) : '\n' ∉ natToDec n := by
  intro h
  have := mem_natToDecAux (n + 1) n '\n' h
  revert this
  decide

/-! ## UTF-8 lemmas -/

theorem utf8Char_ne_nil (c : Char) : utf8Char c ≠ [] := by
  unfold utf8Char
  by_cases h1 : c.toNat < 128
  · simp [h1]
  · by_cases h2 : c.toNat < 2048
    · simp [h1, h2]
    · by_cases h3 : c.toNat < 65536
      · simp [h1, h2, h3]
      · simp [h1, h2, h3]

theorem utf8Encode_eq_nil_iff (s : Str) : utf8Encode s = [] ↔ s = [] := by
  cases s with
  | nil => simp [utf8Encode]
  | cons c cs =>
    simp only [utf8Encode, List.append_eq_nil]
    constructor
    · intro h
      exact absurd h.1 (utf8Char_ne_nil c)
    · intro h
      exact absurd h (by simp)

theorem utf8Char_head_small (c : Char) (hc : c.toNat < 128) : utf8Char c = [c.toNat] := by
  unfold utf8Char
  rw [if_pos hc]

theorem char_eq_of_toNat_eq {a b : Char} (h : a.toNat = b.toNat) : a = b := by
  apply Char.ext
  exact UInt32.ext h

theorem utf8Encode_eq_quotes_iff (s : Str) : utf8Encode s = [34, 34] ↔ s = ['"', '"'] := by
  constructor
  · intro h
    cases s with
    | nil => simp [utf8Encode] at h
    | cons c cs =>
      rw [utf8Encode] at h
      by_cases hc : c.toNat < 128
      · rw [utf8Char_head_small c hc] at h
        simp only [List.cons_append, List.nil_append, List.cons.injEq] at h
        obtain ⟨hc34, hrest⟩ := h
        have hcq : c = '"' := char_eq_of_toNat_eq (by rw [hc34]; rfl)
        cases cs with
        | nil => simp [utf8Encode] at hrest
        | cons d ds =>
          rw [utf8Encode] at hrest
          by_cases hd : d.toNat < 128
          · rw [utf8Char_head_small d hd] at hrest
            simp only [List.cons_append, List.nil_append, List.cons.injEq] at hrest
            obtain ⟨hd34, hrest2⟩ := hrest
            have hdq : d = '"' := char_eq_of_toNat_eq (by rw [hd34]; rfl)
            have hds : ds = [] := (utf8Encode_eq_nil_iff ds).mp hrest2
            rw [hcq, hdq, hds]
          · exfalso
            unfold utf8Char at hrest
            rw [if_neg hd] at hrest
            by_cases h2 : d.toNat < 2048
            · rw [if_pos h2] at hrest
              simp only [List.cons_append, List.cons.injEq] at hrest
              omega
            · rw [if_neg h2] at hrest
              by_cases h3 : d.toNat < 65536
              · rw [if_pos h3] at hrest
                simp only [List.cons_append, List.cons.injEq] at hrest
                omega
              · rw [if_neg h3] at hrest
                simp only [List.cons_append, List.cons.injEq] at hrest
                omega
      · exfalso
        unfold utf8Char at h
        rw [if_neg hc] at h
        by_cases h2 : c.toNat < 2048
        · rw [if_pos h2] at h
          simp only [List.cons_append, List.cons.injEq] at h
          omega
        · rw [if_neg h2] at h
          by_cases h3 : c.toNat < 65536
          · rw [if_pos h3] at h
            simp only [List.cons_append, List.cons.injEq] at h
            omega
          · rw [if_neg h3] at h
            simp only [List.cons_append, List.cons.injEq] at h
            omega
  · intro h
    rw [h]
    rfl

theorem utf8Encode_cons_head (c : Char) (cs : Str) (hc : c.toNat < 128) :
    utf8Encode (c :: cs) = c.toNat :: utf8Encode cs := by
  rw [utf8Encode, utf8Char_head_small c hc]
  rfl

/-! ## `re.sub` detachment lemmas -/

theorem findCloseDot_app (b c : Str) (hb : '.' ∉ b) :
    findCloseDot (b ++ '.' :: c) = Option.some c := by
  induction b with
  | nil => simp [findCloseDot]
  | cons x xs ih =>
    have hx : x ≠ '.' := fun h => hb (h ▸ List.mem_cons_self x xs)
    rw [List.cons_append, findCloseDot, if_neg hx]
    exact ih (fun h => hb (List.mem_cons_of_mem x h))

theorem reSubAux_nochange : ∀ (fuel : Nat) (s : Str), '.' ∉ s → reSubAux fuel s = s
  | 0, s, _ => rfl
  | _ + 1, [], _ => rfl
  | fuel + 1, c :: cs, h => by
    have hc : c ≠ '.' := fun hx => h (hx ▸ List.mem_cons_self c cs)
    rw [reSubAux, if_neg hc, reSubAux_nochange fuel cs (fun hx => h (List.mem_cons_of_mem c hx))]

theorem reSubAux_spec : ∀ (a : Str) (fuel : Nat) (b c : Str), '.' ∉ a → '.' ∉ b → '.' ∉ c →
    (a ++ '.' :: (b ++ '.' :: c)).length ≤ fuel →
    reSubAux fuel (a ++ '.' :: (b ++ '.' :: c)) = a ++ '.' :: '.' :: c := by
  intro a
  induction a with
  | nil =>
    intro fuel b c _ hb hc hlen
    cases fuel with
    | zero => simp at hlen
    | succ f =>
      rw [List.nil_append, reSubAux, if_pos rfl, findCloseDot_app b c hb]
      show ('.' :: '.' :: reSubAux f c : Str) = '.' :: '.' :: c
      rw [reSubAux_nochange f c hc]
  | cons x xs ih =>
    intro fuel b c ha hb hc hlen
    cases fuel with
    | zero => simp at hlen
    | succ f =>
      have hx : x ≠ '.' := fun h => ha (h ▸ List.mem_cons_self x xs)
      rw [List.cons_append, reSubAux, if_neg hx,
        ih f b c (fun h => ha (List.mem_cons_of_mem x h)) hb hc (by simpa using Nat.le_of_succ_le_succ (by simpa using hlen))]
      rfl

theorem reSubDetach_spec (a b c : Str) (ha : '.' ∉ a) (hb : '.' ∉ b) (hc : '.' ∉ c) :
    reSubDetach (a ++ '.' :: (b ++ '.' :: c)) = a ++ '.' :: '.' :: c :=
  reSubAux_spec a _ b c ha hb hc (Nat.le_refl _)

/-! ## Compact-JWS segmentation lemmas -/

theorem splitOnChar_nodot (sep : Char) : ∀ (s : Str), sep ∉ s → splitOnChar sep s = [s]
  | [], _ => rfl
  | c :: cs, h => by
    have hc : c ≠ sep := fun hx => h (hx ▸ List.mem_cons_self c cs)
    rw [splitOnChar, if_neg hc, splitOnChar_nodot sep cs (fun hx => h (List.mem_cons_of_mem c hx))]

theorem splitOnChar_two (sep : Char) :
    ∀ (b c : Str), sep ∉ b → sep ∉ c → splitOnChar sep (b ++ sep :: c) = [b, c]
  | [], c, _, hc => by
    rw [List.nil_append, splitOnChar, if_pos rfl, splitOnChar_nodot sep c hc]
  | x :: xs, c, hb, hc => by
    have hx : x ≠ sep := fun h => hb (h ▸ List.mem_cons_self x xs)
    rw [List.cons_append, splitOnChar, if_neg hx,
      splitOnChar_two sep xs c (fun h => hb (List.mem_cons_of_mem x h)) hc]

theorem splitOnChar_three (sep : Char) :
    ∀ (a b c : Str), sep ∉ a → sep ∉ b → sep ∉ c →
      splitOnChar sep (a ++ sep :: (b ++ sep :: c)) = [a, b, c]
  | [], b, c, _, hb, hc => by
    rw [List.nil_append, splitOnChar, if_pos rfl, splitOnChar_two sep b c hb hc]
  | x :: xs, b, c, ha, hb, hc => by
    have hx : x ≠ sep := fun h => ha (h ▸ List.mem_cons_self x xs)
    rw [List.cons_append, splitOnChar, if_neg hx,
      splitOnChar_three sep xs b c (fun h => ha (List.mem_cons_of_mem x h)) hb hc]

/-! ## The request body -/

theorem mkPayload_flat (cid : Str) (scopes : List Str) (aud nowIso : Str) :
    mkPayload cid scopes aud nowIso =
      ("grant_type=client_credentials&client_id=").data ++
        (cid ++ (("&scope=").data ++ (pyJoin (" ").data scopes ++
          (("&resource=").data ++ (aud ++ (("&current_timestamp=").data ++
            (nowIso ++ ['Z']))))))) := rfl

theorem mkPayload_shape (cid : Str) (scopes : List Str) (aud nowIso : Str) :
    mkPayload cid scopes aud nowIso =
      'g' :: ((("rant_type=client_credentials&client_id=").data ++
        (cid ++ (("&scope=").data ++ (pyJoin (" ").data scopes ++
          (("&resource=").data ++ (aud ++ (("&current_timestamp=").data ++
            nowIso))))))) ++ ['Z']) := by
  rw [mkPayload_flat]
  change 'g' :: (("rant_type=client_credentials&client_id=").data ++
        (cid ++ (("&scope=").data ++ (pyJoin (" ").data scopes ++
          (("&resource=").data ++ (aud ++ (("&current_timestamp=").data ++
            (nowIso ++ ['Z'])))))))) = _
  congr 1
  simp only [List.append_assoc]

theorem mkPayload_ne_nil (cid : Str) (scopes : List Str) (aud nowIso : Str) :
    mkPayload cid scopes aud nowIso ≠ [] := by
  rw [mkPayload_shape]
  simp

/-- The body never begins or ends in whitespace, so Python `strip` leaves
it unchanged. -/
theorem pyStrip_mkPayload (cid : Str) (scopes : List Str) (aud nowIso : Str) :
    pyStrip pyWsChar (mkPayload cid scopes aud nowIso) =
      mkPayload cid scopes aud nowIso := by
  rw [mkPayload_shape]
  exact pyStrip_noop_cons_concat pyWsChar 'g' 'Z' _ (by decide) (by decide)

theorem utf8_mkPayload_head (cid : Str) (scopes : List Str) (aud nowIso : Str) :
    ∃ t, utf8Encode (mkPayload cid scopes aud nowIso) = 103 :: t := by
  rw [mkPayload_shape, utf8Encode_cons_head 'g' _ (by decide)]
  exact ⟨_, rfl⟩

/-! ## Claim theorems: content digest (C3, C7, C5) -/

theorem gcd_str_eq (sha512 : List Nat → List Nat) (s : Str) :
    get_content_digest sha512 (.str s) =
      b64encode (sha512 (if s = [] then []
        else if utf8Encode (pyStrip pyWsChar s) = [34, 34] then []
        else utf8Encode (pyStrip pyWsChar s))) := rfl

theorem gcd_bytes_eq (sha512 : List Nat → List Nat) (b : List Nat) :
    get_content_digest sha512 (.bytes b) =
      b64encode (sha512 (if b = [] then []
        else if pyStrip pyWsByte b = [34, 34] then []
        else pyStrip pyWsByte b)) := rfl

/-- C3: `digest(payload)` is the padded base64 of SHA-512 of the normalized
payload bytes, where `None`, the empty string and any payload trimming to
the two-character literal `""` normalize to the empty byte sequence; in
particular `digest(None) = digest("") = digest('""') = base64(SHA-512(ε))`. -/
theorem content_digest_normalization :
    (∀ (sha512 : List Nat → List Nat) (p : Payload),
        get_content_digest sha512 p = b64encode (sha512 (specNormalize p))) ∧
    (∀ sha512 : List Nat → List Nat,
        get_content_digest sha512 Payload.none = b64encode (sha512 [])) ∧
    (∀ sha512 : List Nat → List Nat,
        get_content_digest sha512 (Payload.str []) = b64encode (sha512 [])) ∧
    (∀ sha512 : List Nat → List Nat,
        get_content_digest sha512 (Payload.str ['"', '"']) = b64encode (sha512 [])) := by
  have main : ∀ (sha512 : List Nat → List Nat) (p : Payload),
      get_content_digest sha512 p = b64encode (sha512 (specNormalize p)) := by
    intro sha512 p
    cases p with
    | none => rfl
    | str s =>
      rw [gcd_str_eq]
      show _ = b64encode (sha512 (if pyStrip pyWsChar s = ['"', '"'] then []
        else utf8Encode (pyStrip pyWsChar s)))
      by_cases hs : s = []
      · subst hs
        rw [if_pos rfl, if_neg (by decide)]
        rfl
      · rw [if_neg hs]
        by_cases hq : pyStrip pyWsChar s = ['"', '"']
        · rw [if_pos hq, if_pos ((utf8Encode_eq_quotes_iff _).mpr hq)]
        · rw [if_neg hq, if_neg (fun hx => hq ((utf8Encode_eq_quotes_iff _).mp hx))]
    | bytes b =>
      rw [gcd_bytes_eq]
      show _ = b64encode (sha512 (if pyStrip pyWsByte b = [34, 34] then []
        else pyStrip pyWsByte b))
      by_cases hb : b = []
      · subst hb
        rw [if_pos rfl, if_neg (by decide)]
        rfl
      · rw [if_neg hb]
  refine ⟨main, fun sha512 => rfl, fun sha512 => rfl, fun sha512 => ?_⟩
  rw [gcd_str_eq, if_neg (by decide), if_pos (by decide)]

/-- C7: trimming leading/trailing whitespace from a payload (string or
bytes) never changes its content digest. -/
theorem digest_trim_invariant :
    (∀ (sha512 : List Nat → List Nat) (s : Str),
        get_content_digest sha512 (.str s) =
          get_content_digest sha512 (.str (pyStrip pyWsChar s))) ∧
    (∀ (sha512 : List Nat → List Nat) (b : List Nat),
        get_content_digest sha512 (.bytes b) =
          get_content_digest sha512 (.bytes (pyStrip pyWsByte b))) := by
  constructor
  · intro sha512 s
    rw [gcd_str_eq, gcd_str_eq, pyStrip_idem]
    by_cases hs : s = []
    · subst hs
      rw [pyStrip_nil]
    · rw [if_neg hs]
      by_cases hs2 : pyStrip pyWsChar s = []
      · rw [if_pos hs2, hs2]
        rw [if_neg (by decide)]
        show b64encode (sha512 []) = b64encode (sha512 (if utf8Encode [] = [34, 34] then [] else utf8Encode []))
        rw [if_neg (by decide)]
        rfl
      · rw [if_neg hs2]
  · intro sha512 b
    rw [gcd_bytes_eq, gcd_bytes_eq, pyStrip_idem]
    by_cases hb : b = []
    · subst hb
      rw [pyStrip_nil]
    · rw [if_neg hb]
      by_cases hb2 : pyStrip pyWsByte b = []
      · rw [if_pos hb2, hb2]
        rw [if_neg (by decide)]
      · rw [if_neg hb2]

/-- C5: on every request body the adapter constructs, the inline
SHA-512/base64 computation of the UFT branch agrees with
`get_content_digest` of `hasher.py` applied to the same body. -/
theorem uft_inline_digest_agrees_with_hasher
    (sha512 : List Nat → List Nat) (cid : Str) (scopes : List Str) (aud nowIso : Str) :
    inlineContentDigest sha512 (mkPayload cid scopes aud nowIso) =
      get_content_digest sha512 (.str (mkPayload cid scopes aud nowIso)) := by
  rw [gcd_str_eq, if_neg (mkPayload_ne_nil cid scopes aud nowIso), pyStrip_mkPayload]
  obtain ⟨t, ht⟩ := utf8_mkPayload_head cid scopes aud nowIso
  rw [inlineContentDigest, ht]
  rw [if_neg (show ¬(103 :: t = ([34, 34] : List Nat)) by simp)]

/-! ## Claim theorems: self-verifying signatures (C4) -/

/-- C4: every signature string the signer returns (the compact JWS of
Convention A and the raw RS256 signature of Convention B) has passed the
immediate re-verification against the public key; when that verification
fails, the signing operation raises an error instead of returning a
signature. -/
theorem signatures_self_verified (scheme : SigScheme) (protectedJson payload : Str) :
    (∀ s, _make_jws scheme protectedJson payload = .ok s →
        s = jwsSigningInput protectedJson payload ++
            ('.' :: b64urlEncode (scheme.sign (utf8Encode (jwsSigningInput protectedJson payload)))) ∧
        scheme.verify (utf8Encode (jwsSigningInput protectedJson payload))
          (scheme.sign (utf8Encode (jwsSigningInput protectedJson payload))) = true) ∧
    (scheme.verify (utf8Encode (jwsSigningInput protectedJson payload))
        (scheme.sign (utf8Encode (jwsSigningInput protectedJson payload))) = false →
      _make_jws scheme protectedJson payload = .error (.accessTokenError
        ("Could not construct a valid cryptographic signature for JWS").data)) ∧
    (∀ s, _make_signature scheme payload = .ok s →
        s = b64encode (scheme.sign (utf8Encode payload)) ∧
        scheme.verify (utf8Encode payload) (scheme.sign (utf8Encode payload)) = true) ∧
    (scheme.verify (utf8Encode payload) (scheme.sign (utf8Encode payload)) = false →
      _make_signature scheme payload = .error .invalidJWSSignature) := by
  refine ⟨?_, ?_, ?_, ?_⟩
  · intro s h
    simp only [_make_jws] at h
    by_cases hv : scheme.verify (utf8Encode (jwsSigningInput protectedJson payload))
        (scheme.sign (utf8Encode (jwsSigningInput protectedJson payload))) = true
    · rw [if_pos hv] at h
      injection h with h2
      exact ⟨h2.symm, hv⟩
    · rw [if_neg hv] at h
      exact absurd h (by simp)
  · intro hv
    simp only [_make_jws]
    rw [if_neg (by simp [hv])]
  · intro s h
    simp only [_make_signature] at h
    by_cases hv : scheme.verify (utf8Encode payload) (scheme.sign (utf8Encode payload)) = true
    · rw [if_pos hv] at h
      injection h with h2
      exact ⟨h2.symm, hv⟩
    · rw [if_neg hv] at h
      exact absurd h (by simp)
  · intro hv
    simp only [_make_signature]
    rw [if_neg (by simp [hv])]

theorem signatures_self_verified_witness :
    scheme0.verify (utf8Encode (jwsSigningInput ("j").data ("p").data))
      (scheme0.sign (utf8Encode (jwsSigningInput ("j").data ("p").data))) = true ∧
    _make_signature schemeBad ("p").data = .error Err.invalidJWSSignature := by
  constructor
  · exact ((signatures_self_verified scheme0 ("j").data ("p").data).1 _ rfl).2
  · exact (signatures_self_verified schemeBad ("j").data ("p").data).2.2.2 rfl

/-! ## Claim theorems: response handling (C6) -/

/-- C6: once the signed request is prepared, `issue_token` returns the
parsed `access_token` field exactly when the HTTP status is 200; on any
other status it raises `AccessTokenError` whose message contains both the
decimal status code and the response body. -/
theorem issue_token_response_handling (scheme : SigScheme) (jsonEnc : TokenHeaders → Str)
    (sha512 : List Nat → List Nat) (st : AdapterState) (ci : CallInputs)
    (resp : HttpResponse) (jsonAccessToken : Str → Except Err Str) (pr : PreparedRequest)
    (hprep : prepareRequest scheme jsonEnc sha512 st ci = .ok pr) :
    (resp.status_code = 200 →
        issue_token scheme jsonEnc sha512 st ci resp jsonAccessToken =
          jsonAccessToken resp.content) ∧
    (resp.status_code ≠ 200 →
        issue_token scheme jsonEnc sha512 st ci resp jsonAccessToken =
          .error (.accessTokenError (signedRequestErrMsg resp)) ∧
        (∃ pre post, signedRequestErrMsg resp = pre ++ (natToDec resp.status_code ++ post)) ∧
        (∃ pre post, signedRequestErrMsg resp = pre ++ (resp.content ++ post))) := by
  constructor
  · intro h200
    rw [issue_token, hprep]
    rw [if_neg (by simp [h200])]
  · intro hneq
    refine ⟨?_, ?_, ?_⟩
    · rw [issue_token, hprep]
      rw [if_pos hneq]
    · exact ⟨("Request to get SignedRequest access token returned ").data,
        (" \"").data ++ (resp.content ++ (("\" at ").data ++ resp.url)), rfl⟩
    · refine ⟨("Request to get SignedRequest access token returned ").data ++
        (natToDec resp.status_code ++ (" \"").data),
        ("\" at ").data ++ resp.url, ?_⟩
      rw [signedRequestErrMsg]
      simp only [List.append_assoc]

theorem issue_token_response_handling_witness :
    issue_token scheme0 jsonEnc0 sha0 stUft0 ci0 resp401 jsonTok0 =
      .error (.accessTokenError (signedRequestErrMsg resp401)) :=
  ((issue_token_response_handling scheme0 jsonEnc0 sha0 stUft0 ci0 resp401 jsonTok0
    prUft0 rfl).2 (by decide)).1

/-! ## Claim theorems: key-pair cross-validation (C8) -/

/-- C8: with recognized file extensions, construction compares the public
key extracted from the certificate byte-for-byte with the one derived from
the private key: a mismatch makes `_load_keypair`, and hence
`SignedRequest.__init__`, fail with the mismatch error (so no adapter, and
no signing, results from a mismatched pair); equality yields the JWK pair. -/
theorem keypair_cross_validation (lib : CryptoLib)
    (token_endpoint client_id key_path cert_url : Str) (key_id : Option Str)
    (signature_style : Str) (certContent keyContent : List Nat)
    (hstyle : signature_style = ("UPP2").data ∨ signature_style = ("UFT").data)
    (hcert : lower4 cert_url = (".der").data ∨ lower4 cert_url = (".crt").data)
    (hkey : lower4 key_path = (".key").data ∨ lower4 key_path = (".pem").data) :
    ((if lower4 cert_url = (".der").data then lib.loadDerCertPub certContent
        else lib.loadPemCertPub certContent) ≠ lib.derivePublicPem keyContent →
      _load_keypair lib key_path cert_url certContent keyContent =
        .error (.accessTokenError
          ("Public key in certificate does not match private key provided").data) ∧
      signedRequestInit lib token_endpoint client_id key_path cert_url key_id
          signature_style certContent keyContent =
        .error (.accessTokenError
          ("Public key in certificate does not match private key provided").data)) ∧
    ((if lower4 cert_url = (".der").data then lib.loadDerCertPub certContent
        else lib.loadPemCertPub certContent) = lib.derivePublicPem keyContent →
      _load_keypair lib key_path cert_url certContent keyContent =
        .ok (lib.jwkFromPem keyContent, lib.jwkFromPem (lib.derivePublicPem keyContent))) := by
  have hload : ∀ certPub,
      (if lower4 cert_url = (".der").data then Option.some (lib.loadDerCertPub certContent)
        else if lower4 cert_url = (".crt").data then Option.some (lib.loadPemCertPub certContent)
        else Option.none) = Option.some certPub →
      _load_keypair lib key_path cert_url certContent keyContent =
        (if certPub ≠ lib.derivePublicPem keyContent then
          .error (.accessTokenError
            ("Public key in certificate does not match private key provided").data)
        else .ok (lib.jwkFromPem keyContent,
          lib.jwkFromPem (lib.derivePublicPem keyContent))) := by
    intro certPub hsome
    rw [_load_keypair, hsome]
    dsimp only
    rw [if_pos hkey]
  have hsome : (if lower4 cert_url = (".der").data then
        Option.some (lib.loadDerCertPub certContent)
      else if lower4 cert_url = (".crt").data then Option.some (lib.loadPemCertPub certContent)
      else Option.none) =
      Option.some (if lower4 cert_url = (".der").data then lib.loadDerCertPub certContent
        else lib.loadPemCertPub certContent) := by
    rcases hcert with h | h
    · rw [if_pos h, if_pos h]
    · by_cases h2 : lower4 cert_url = (".der").data
      · rw [if_pos h2, if_pos h2]
      · rw [if_neg h2, if_neg h2, if_pos h]
  have hmain := hload _ hsome
  constructor
  · intro hne
    have hl : _load_keypair lib key_path cert_url certContent keyContent =
        .error (.accessTokenError
          ("Public key in certificate does not match private key provided").data) := by
      rw [hmain, if_pos hne]
    refine ⟨hl, ?_⟩
    rw [signedRequestInit]
    rw [if_neg (by
      intro hcon
      rcases hstyle with h | h
      · exact hcon.1 h
      · exact hcon.2 h)]
    rw [hl]
  · intro heq
    rw [hmain, if_neg (by simpa using heq)]

theorem keypair_cross_validation_witness :
    _load_keypair libMismatch ("k.pem").data ("https://c/x.der").data [0] [0] =
      .error (.accessTokenError
        ("Public key in certificate does not match private key provided").data) ∧
    _load_keypair libMatch ("k.pem").data ("https://c/x.der").data [0] [0] =
      .ok ([0], [3]) := by
  constructor
  · exact ((keypair_cross_validation libMismatch ("e").data ("c").data ("k.pem").data
      ("https://c/x.der").data Option.none ("UPP2").data [0] [0]
      (Or.inl rfl) (Or.inl (by decide)) (Or.inr (by decide))).1 (by decide)).1
  · exact (keypair_cross_validation libMatch ("e").data ("c").data ("k.pem").data
      ("https://c/x.der").data Option.none ("UPP2").data [0] [0]
      (Or.inl rfl) (Or.inl (by decide)) (Or.inr (by decide))).2 (by decide)

/-! ## Claim theorems: the transmitted body (C9) -/

/-- C9 counterexample: the request body the adapter builds (and signs and
transmits) is not the `application/x-www-form-urlencoded` serialization of
its fields; with scopes `["read", "write"]` the body carries a literal
space in the `scope` value where the urlencoded serialization (spec §6)
carries `+`. -/
theorem payload_not_form_urlencoded :
    mkPayload ("c").data [("read").data, ("write").data] ("aud").data ("T1").data ≠
      formUrlEncode (tokenRequestQuery ("c").data [("read").data, ("write").data]
        ("aud").data ("T1").data) := by
  decide

/-- C9 (amended): for every issuance call in either convention, the body
of the outgoing POST — the same string that is signed and digested — is the
`&`-joined `k=v` serialization of the request fields, values inserted
verbatim without percent-encoding, in the fixed order `grant_type,
client_id, scope, resource, current_timestamp`. -/
theorem payload_exact_serialization (scheme : SigScheme) (jsonEnc : TokenHeaders → Str)
    (sha512 : List Nat → List Nat) (st : AdapterState) (ci : CallInputs)
    (pr : PreparedRequest)
    (hprep : prepareRequest scheme jsonEnc sha512 st ci = .ok pr) :
    pr.body = mkPayload st.client_id ci.scopes ci.intended_audience ci.nowIso ∧
    pr.body = ("grant_type=client_credentials&client_id=").data ++
      (st.client_id ++ (("&scope=").data ++ (pyJoin (" ").data ci.scopes ++
        (("&resource=").data ++ (ci.intended_audience ++
          (("&current_timestamp=").data ++ (ci.nowIso ++ ['Z']))))))) := by
  have hbody : pr.body = mkPayload st.client_id ci.scopes ci.intended_audience ci.nowIso := by
    rw [prepareRequest] at hprep
    by_cases h1 : st.signature_style = ("UPP2").data
    · rw [if_pos h1] at hprep
      rcases hjws : _make_jws scheme
          (jsonEnc ⟨("JOSE").data, ("RS256").data, st.cert_url, st.kid⟩)
          (mkPayload st.client_id ci.scopes ci.intended_audience ci.nowIso) with e | s
      · rw [hjws] at hprep
        simp at hprep
      · rw [hjws] at hprep
        injection hprep with h2
        rw [← h2]
    · rw [if_neg h1] at hprep
      by_cases h2 : st.signature_style = ("UFT").data
      · rw [if_pos h2] at hprep
        dsimp only at hprep
        rcases hsig : _make_signature scheme (uftBaseFor
            (uftSignatureContent (urlparsePath st.token_endpoint)
              (inlineContentDigest sha512
                (mkPayload st.client_id ci.scopes ci.intended_audience ci.nowIso))
              ⟨("JOSE").data, ("RS256").data, st.cert_url, st.kid⟩ ci.created)
            uftAllComponents) with e | s
        · rw [hsig] at hprep
          simp at hprep
        · rw [hsig] at hprep
          injection hprep with h3
          rw [← h3]
      · rw [if_neg h2] at hprep
        simp at hprep
  exact ⟨hbody, by rw [hbody, mkPayload_flat]⟩

theorem payload_exact_serialization_witness :
    prUpp0.body = mkPayload st0.client_id ci0.scopes ci0.intended_audience ci0.nowIso :=
  (payload_exact_serialization scheme0 jsonEnc0 sha0 st0 ci0 prUpp0 rfl).1

/-! ## Claim theorems: UPP2 detached signature (C1) -/

theorem make_jws_ok_elim {scheme : SigScheme} {pj payload s : Str}
    (h : _make_jws scheme pj payload = .ok s) :
    s = jwsSigningInput pj payload ++
        ('.' :: b64urlEncode (scheme.sign (utf8Encode (jwsSigningInput pj payload)))) ∧
    scheme.verify (utf8Encode (jwsSigningInput pj payload))
      (scheme.sign (utf8Encode (jwsSigningInput pj payload))) = true := by
  simp only [_make_jws] at h
  by_cases hv : scheme.verify (utf8Encode (jwsSigningInput pj payload))
      (scheme.sign (utf8Encode (jwsSigningInput pj payload))) = true
  · rw [if_pos hv] at h
    injection h with h2
    exact ⟨h2.symm, hv⟩
  · rw [if_neg hv] at h
    exact absurd h (by simp)

theorem append_dot_assoc (x y z : Str) :
    (x ++ ('.' :: y)) ++ ('.' :: z) = x ++ ('.' :: (y ++ ('.' :: z))) := by
  simp [List.append_assoc]

/-- C1: in the UPP2 convention, the outgoing `x-utm-message-signature`
header equals the compact JWS over the literal request body with its
payload segment erased (`header..signature`), and reinserting the
base64url encoding of the body as the middle segment reconstitutes a
structurally valid three-segment compact JWS whose signature passed
verification against the public key. -/
theorem upp2_detached_signature (scheme : SigScheme) (jsonEnc : TokenHeaders → Str)
    (sha512 : List Nat → List Nat) (st : AdapterState) (ci : CallInputs)
    (pr : PreparedRequest)
    (hstyle : st.signature_style = ("UPP2").data)
    (hprep : prepareRequest scheme jsonEnc sha512 st ci = .ok pr) :
    let th : TokenHeaders := ⟨("JOSE").data, ("RS256").data, st.cert_url, st.kid⟩
    let hdrSeg := b64urlEncode (utf8Encode (jsonEnc th))
    let midSeg := b64urlEncode (utf8Encode pr.body)
    let sigSeg := b64urlEncode (scheme.sign (utf8Encode (hdrSeg ++ ('.' :: midSeg))))
    lookupHdr pr.headers ("x-utm-message-signature").data =
        Option.some (hdrSeg ++ ('.' :: ('.' :: sigSeg))) ∧
    splitOnChar '.' (hdrSeg ++ ('.' :: (midSeg ++ ('.' :: sigSeg)))) =
        [hdrSeg, midSeg, sigSeg] ∧
    scheme.verify (utf8Encode (hdrSeg ++ ('.' :: midSeg)))
        (scheme.sign (utf8Encode (hdrSeg ++ ('.' :: midSeg)))) = true := by
  intro th hdrSeg midSeg sigSeg
  rw [prepareRequest, if_pos hstyle] at hprep
  rcases hjws : _make_jws scheme
      (jsonEnc ⟨("JOSE").data, ("RS256").data, st.cert_url, st.kid⟩)
      (mkPayload st.client_id ci.scopes ci.intended_audience ci.nowIso) with e | s
  · rw [hjws] at hprep
    simp at hprep
  · rw [hjws] at hprep
    injection hprep with h2
    obtain ⟨hs, hv⟩ := make_jws_ok_elim hjws
    have hbody : pr.body = mkPayload st.client_id ci.scopes ci.intended_audience ci.nowIso := by
      rw [← h2]
    have hmid : midSeg = b64urlEncode (utf8Encode
        (mkPayload st.client_id ci.scopes ci.intended_audience ci.nowIso)) := by
      show b64urlEncode (utf8Encode pr.body) = _
      rw [hbody]
    have hsi : jwsSigningInput
        (jsonEnc ⟨("JOSE").data, ("RS256").data, st.cert_url, st.kid⟩)
        (mkPayload st.client_id ci.scopes ci.intended_audience ci.nowIso) =
        hdrSeg ++ ('.' :: midSeg) := by
      rw [jwsSigningInput, hmid]
    refine ⟨?_, ?_, ?_⟩
    · have hhdrs : pr.headers =
          [(("Content-Type").data, ("application/x-www-form-urlencoded").data),
           (("x-utm-message-signature").data, reSubDetach s)] := by
        rw [← h2]
      rw [hhdrs, lookupHdr, if_neg (by decide), lookupHdr, if_pos rfl]
      rw [hs, hsi, append_dot_assoc]
      rw [reSubDetach_spec hdrSeg midSeg _ (dot_not_mem_b64urlEncode _)
        (dot_not_mem_b64urlEncode _) (dot_not_mem_b64urlEncode _)]
    · exact splitOnChar_three '.' hdrSeg midSeg sigSeg (dot_not_mem_b64urlEncode _)
        (dot_not_mem_b64urlEncode _) (dot_not_mem_b64urlEncode _)
    · rw [← hsi]
      exact hv

theorem upp2_detached_signature_witness :
    lookupHdr prUpp0.headers ("x-utm-message-signature").data =
        Option.some (hdrSeg0 ++ ('.' :: ('.' :: sigSeg0))) ∧
    splitOnChar '.' (hdrSeg0 ++ ('.' :: (midSeg0 ++ ('.' :: sigSeg0)))) =
        [hdrSeg0, midSeg0, sigSeg0] := by
  have h := upp2_detached_signature scheme0 jsonEnc0 sha0 st0 ci0 prUpp0 rfl rfl
  exact ⟨h.1, h.2.1⟩

/-! ## URL parsing lemmas (C10) -/

theorem all_eq_false_of_mem {p : α → Bool} {x : α} {l : List α}
    (hx : x ∈ l) (hp : p x = false) : l.all p = false := by
  cases hall : l.all p with
  | false => rfl
  | true => exact absurd (List.all_eq_true.mp hall x hx) (by simp [hp])

theorem takeWhile_all_self {p : α → Bool} : ∀ {l : List α},
    (∀ x ∈ l, p x = true) → l.takeWhile p = l
  | [], _ => rfl
  | x :: xs, h => by
    rw [List.takeWhile_cons_of_pos (h x (List.mem_cons_self x xs))]
    rw [takeWhile_all_self fun y hy => h y (List.mem_cons_of_mem x hy)]

theorem takeWhile_append_stop (p : α → Bool) : ∀ (T : List α) (c : α) (R : List α),
    p c = false → (T ++ c :: R).takeWhile p = T.takeWhile p
  | [], c, R, hc => by
    rw [List.nil_append, List.takeWhile_cons_of_neg (by simp [hc])]
    rfl
  | x :: T2, c, R, hc => by
    by_cases hx : p x = true
    · rw [List.cons_append, List.takeWhile_cons_of_pos hx, List.takeWhile_cons_of_pos hx,
        takeWhile_append_stop p T2 c R hc]
    · rw [List.cons_append, List.takeWhile_cons_of_neg (by simpa using hx),
        List.takeWhile_cons_of_neg (by simpa using hx)]

theorem takeWhile_append_mem_stop {p : α → Bool} {x : α} :
    ∀ {T : List α} (R : List α), x ∈ T → p x = false →
      (T ++ R).takeWhile p = T.takeWhile p
  | [], _, hx, _ => absurd hx (List.not_mem_nil x)
  | y :: T2, R, hx, hp => by
    by_cases hy : p y = true
    · have hxT2 : x ∈ T2 := by
        rcases List.mem_cons.mp hx with h | h
        · exact absurd (h ▸ hy) (by simp [hp])
        · exact h
      rw [List.cons_append, List.takeWhile_cons_of_pos hy, List.takeWhile_cons_of_pos hy,
        takeWhile_append_mem_stop R hxT2 hp]
    · rw [List.cons_append, List.takeWhile_cons_of_neg (by simpa using hy),
        List.takeWhile_cons_of_neg (by simpa using hy)]

theorem takeWhile_append_of_dropWhile_ne_nil {p : α → Bool} :
    ∀ {T : List α} (R : List α), T.dropWhile p ≠ [] →
      (T ++ R).takeWhile p = T.takeWhile p
  | [], _, h => absurd rfl h
  | y :: T2, R, h => by
    by_cases hy : p y = true
    · rw [List.dropWhile_cons_of_pos hy] at h
      rw [List.cons_append, List.takeWhile_cons_of_pos hy, List.takeWhile_cons_of_pos hy,
        takeWhile_append_of_dropWhile_ne_nil R h]
    · rw [List.cons_append, List.takeWhile_cons_of_neg (by simpa using hy),
        List.takeWhile_cons_of_neg (by simpa using hy)]

theorem dropWhile_nil_all {p : α → Bool} : ∀ {l : List α},
    l.dropWhile p = [] → ∀ x ∈ l, p x = true
  | [], _, x, hx => absurd hx (List.not_mem_nil x)
  | y :: l2, h, x, hx => by
    by_cases hy : p y = true
    · rw [List.dropWhile_cons_of_pos hy] at h
      rcases List.mem_cons.mp hx with h2 | h2
      · exact h2 ▸ hy
      · exact dropWhile_nil_all h x h2
    · rw [List.dropWhile_cons_of_neg (by simpa using hy)] at h
      exact absurd h (by simp)

theorem dropWhile_append_nil {p : α → Bool} : ∀ {T : List α} (R : List α),
    T.dropWhile p = [] → (T ++ R).dropWhile p = R.dropWhile p
  | [], R, _ => rfl
  | y :: T2, R, h => by
    by_cases hy : p y = true
    · rw [List.dropWhile_cons_of_pos hy] at h
      rw [List.cons_append, List.dropWhile_cons_of_pos hy]
      exact dropWhile_append_nil R h
    · rw [List.dropWhile_cons_of_neg (by simpa using hy)] at h
      exact absurd h (by simp)

theorem dropWhile_append_cons {p : α → Bool} : ∀ {T : List α} {x : α} {tl : List α}
    (R : List α), T.dropWhile p = x :: tl → (T ++ R).dropWhile p = x :: (tl ++ R)
  | [], x, tl, R, h => absurd h (by simp)
  | y :: T2, x, tl, R, h => by
    by_cases hy : p y = true
    · rw [List.dropWhile_cons_of_pos hy] at h
      rw [List.cons_append, List.dropWhile_cons_of_pos hy]
      exact dropWhile_append_cons R h
    · rw [List.dropWhile_cons_of_neg (by simpa using hy)] at h
      rw [List.cons_append, List.dropWhile_cons_of_neg (by simpa using hy)]
      injection h with h1 h2
      rw [h1, h2]

theorem urlPreprocess_append_query (b q : Str) :
    urlPreprocess (b ++ ('?' :: q)) =
      urlPreprocess b ++
        ('?' :: q.filter fun c => c != '\t' && c != '\r' && c != '\n') := by
  unfold urlPreprocess
  have hq : ('?' :: q).filter (fun c => c != '\t' && c != '\r' && c != '\n') =
      '?' :: q.filter (fun c => c != '\t' && c != '\r' && c != '\n') :=
    List.filter_cons_of_pos (by decide)
  rcases h : b.dropWhile (fun c => decide (c.toNat ≤ 32)) with _ | ⟨x, tl⟩
  · rw [dropWhile_append_nil _ h, List.dropWhile_cons_of_neg (by decide), h, hq]
    rfl
  · rw [dropWhile_append_cons _ h, h]
    rw [show x :: (tl ++ '?' :: q) = (x :: tl) ++ '?' :: q from rfl]
    rw [List.filter_append, hq]

theorem splitSchemeRest_append (A Q : Str) :
    splitSchemeRest (A ++ ('?' :: Q)) = splitSchemeRest A ++ ('?' :: Q) := by
  unfold splitSchemeRest
  rcases h : A.dropWhile (fun c => c != ':') with _ | ⟨x, tl⟩
  · have hallA : ∀ c ∈ A, (c != ':') = true := dropWhile_nil_all h
    have hfull : (A ++ '?' :: Q).dropWhile (fun c => c != ':') =
        Q.dropWhile (fun c => c != ':') := by
      rw [dropWhile_append_nil _ h, List.dropWhile_cons_of_pos (by decide)]
    rw [hfull]
    rcases hQd : Q.dropWhile (fun c => c != ':') with _ | ⟨y, tl2⟩
    · dsimp only
    · dsimp only
      have hpre : (A ++ '?' :: Q).takeWhile (fun c => c != ':') =
          A ++ '?' :: Q.takeWhile (fun c => c != ':') := by
        rw [List.takeWhile_append_of_pos hallA,
          List.takeWhile_cons_of_pos (by decide)]
      rw [hpre]
      rw [if_neg (by
        intro hcon
        have hall := (Bool.and_eq_true _ _).mp hcon |>.2
        have hq := List.all_eq_true.mp hall '?'
          (List.mem_append.mpr (Or.inr (List.mem_cons_self _ _)))
        revert hq
        decide)]
  · have hfull : (A ++ '?' :: Q).dropWhile (fun c => c != ':') =
        x :: (tl ++ '?' :: Q) := dropWhile_append_cons _ h
    have hne : A.dropWhile (fun c => c != ':') ≠ [] := by
      rw [h]
      simp
    have hpre : (A ++ '?' :: Q).takeWhile (fun c => c != ':') =
        A.takeWhile (fun c => c != ':') :=
      takeWhile_append_of_dropWhile_ne_nil _ hne
    rw [hfull, hpre]
    dsimp only
    by_cases hcond : (((A.takeWhile fun c => c != ':').headD ' ').isAlpha &&
        (A.takeWhile fun c => c != ':').all schemeChar) = true
    · rw [if_pos hcond, if_pos hcond]
    · rw [if_neg hcond, if_neg hcond]

theorem dropNetloc_append (S Q : Str) :
    dropNetloc (S ++ ('?' :: Q)) = dropNetloc S ++ ('?' :: Q) := by
  rcases S with _ | ⟨a, _ | ⟨b, S2⟩⟩
  · rcases Q with _ | ⟨y, Q2⟩
    · rfl
    · show dropNetloc ('?' :: y :: Q2) = '?' :: y :: Q2
      unfold dropNetloc
      dsimp only
      rw [if_neg (by simp)]
  · show dropNetloc (a :: '?' :: Q) = [a] ++ '?' :: Q
    unfold dropNetloc
    dsimp only
    rw [if_neg (by simp)]
    rfl
  · show dropNetloc (a :: b :: (S2 ++ '?' :: Q)) = dropNetloc (a :: b :: S2) ++ '?' :: Q
    unfold dropNetloc
    dsimp only
    by_cases hab : a = '/' ∧ b = '/'
    · rw [if_pos hab, if_pos hab]
      rcases hS2 : S2.dropWhile (fun c => c != '/' && c != '?' && c != '#') with _ | ⟨y, tl⟩
      · rw [dropWhile_append_nil _ hS2, List.dropWhile_cons_of_neg (by decide)]
        rfl
      · rw [dropWhile_append_cons _ hS2]
        rfl
    · rw [if_neg hab, if_neg hab]
      rfl

theorem stripQF_append (T Q : Str) :
    stripQuery (stripFragment (T ++ ('?' :: Q))) = stripQuery (stripFragment T) := by
  by_cases hT : '#' ∈ T
  · have h1 : stripFragment (T ++ ('?' :: Q)) = stripFragment T :=
      takeWhile_append_mem_stop _ hT (by simp)
    rw [h1]
  · have hall : ∀ x ∈ T, (x != '#') = true := by
      intro x hx
      simp only [bne_iff_ne, ne_eq, decide_eq_true_eq]
      intro hcon
      exact hT (hcon ▸ hx)
    have h1 : stripFragment (T ++ ('?' :: Q)) =
        T ++ ('?' :: Q.takeWhile fun c => c != '#') := by
      unfold stripFragment
      rw [List.takeWhile_append_of_pos hall, List.takeWhile_cons_of_pos (by decide)]
    have h2 : stripFragment T = T := takeWhile_all_self hall
    rw [h1, h2]
    exact takeWhile_append_stop _ T _ _ (by decide)

theorem urlsplitPath_append_query (b q : Str) :
    urlsplitPath (b ++ ('?' :: q)) = urlsplitPath b := by
  unfold urlsplitPath
  rw [urlPreprocess_append_query, splitSchemeRest_append, dropNetloc_append]
  exact stripQF_append _ _

theorem urlparsePath_append_query (b q : Str) :
    urlparsePath (b ++ ('?' :: q)) = urlparsePath b := by
  unfold urlparsePath
  rw [urlsplitPath_append_query]

/-- C10: in the UFT convention the `@method` component is the literal
`POST` and the `@query` component is the literal `?`; the endpoint URL
enters only through its `urlparse(...).path`, and in particular appending
a query string to the endpoint URL changes nothing in the prepared
request. -/
theorem uft_endpoint_query_ignored (path d : Str) (th : TokenHeaders) (created : Nat)
    (scheme : SigScheme) (jsonEnc : TokenHeaders → Str) (sha512 : List Nat → List Nat)
    (te cid cu style : Str) (priv pub : List Nat) (kid : Str) (ci : CallInputs) (q : Str) :
    uftSignatureContent path d th created ("@method").data = ("POST").data ∧
    uftSignatureContent path d th created ("@query").data = ("?").data ∧
    uftSignatureContent path d th created ("@path").data = path ∧
    urlparsePath (te ++ ('?' :: q)) = urlparsePath te ∧
    prepareRequest scheme jsonEnc sha512 ⟨te ++ ('?' :: q), cid, cu, style, priv, pub, kid⟩ ci =
      prepareRequest scheme jsonEnc sha512 ⟨te, cid, cu, style, priv, pub, kid⟩ ci := by
  refine ⟨rfl, rfl, rfl, urlparsePath_append_query te q, ?_⟩
  simp only [prepareRequest]
  rw [urlparsePath_append_query te q]

/-! ## UFT signature base lemmas (C2) -/

theorem uftContent_method (path d : Str) (th : TokenHeaders) (created : Nat) :
    uftSignatureContent path d th created (("@method").data) = ("POST").data := rfl

theorem uftContent_path (path d : Str) (th : TokenHeaders) (created : Nat) :
    uftSignatureContent path d th created (("@path").data) = path := rfl

theorem uftContent_query (path d : Str) (th : TokenHeaders) (created : Nat) :
    uftSignatureContent path d th created (("@query").data) = ("?").data := rfl

theorem uftContent_authorization (path d : Str) (th : TokenHeaders) (created : Nat) :
    uftSignatureContent path d th created (("authorization").data) = [] := rfl

theorem uftContent_ctype (path d : Str) (th : TokenHeaders) (created : Nat) :
    uftSignatureContent path d th created (("content-type").data) =
      ("application/x-www-form-urlencoded").data := rfl

theorem uftContent_digest (path d : Str) (th : TokenHeaders) (created : Nat) :
    uftSignatureContent path d th created (("content-digest").data) =
      ("sha-512=:").data ++ (d ++ (":").data) := rfl

theorem uftContent_jws (path d : Str) (th : TokenHeaders) (created : Nat) :
    uftSignatureContent path d th created (("x-utm-jws-header").data) =
      jwsHeaderValue th := rfl

theorem uftContent_params (path d : Str) (th : TokenHeaders) (created : Nat) :
    uftSignatureContent path d th created (("@signature-params").data) =
      uftSignatureParams created := rfl

theorem quoted_line_inj (content : Str → Str) (x y : Str)
    (hx : '"' ∉ x) (hy : '"' ∉ y)
    (h : ("\"").data ++ (x ++ (("\": ").data ++ content x)) =
      ("\"").data ++ (y ++ (("\": ").data ++ content y))) : x = y := by
  have h3 : ('"' :: (x ++ '"' :: (':' :: ' ' :: content x)) : Str) =
      '"' :: (y ++ '"' :: (':' :: ' ' :: content y)) := h
  have h2 : x ++ '"' :: (':' :: ' ' :: content x) = y ++ '"' :: (':' :: ' ' :: content y) := by
    injection h3
  exact (append_sentinel_inj '"' x y _ _ hx hy h2).1

theorem mem_line_newline_free {content : Str → Str} {c : Str}
    (hc : '\n' ∉ c) (hv : '\n' ∉ content c) :
    '\n' ∉ ("\"").data ++ (c ++ (("\": ").data ++ content c)) := by
  intro h
  rcases List.mem_append.mp h with h1 | h1
  · revert h1
    decide
  · rcases List.mem_append.mp h1 with h2 | h2
    · exact hc h2
    · rcases List.mem_append.mp h2 with h3 | h3
      · revert h3
        decide
      · exact hv h3

theorem uft_content_newline_free (path cu kid : Str) (dig : List Nat) (created : Nat)
    (hp : '\n' ∉ path) (hcu : '\n' ∉ cu) (hkid : '\n' ∉ kid) :
    ∀ c ∈ uftAllComponents,
      '\n' ∉ uftSignatureContent path (b64encode dig)
        ⟨("JOSE").data, ("RS256").data, cu, kid⟩ created c := by
  intro c hc
  have hmem : c = ("@method").data ∨ c = ("@path").data ∨ c = ("@query").data ∨
      c = ("authorization").data ∨ c = ("content-type").data ∨
      c = ("content-digest").data ∨ c = ("x-utm-jws-header").data ∨
      c = ("@signature-params").data := by
    simpa [uftAllComponents, uftComponents] using hc
  rcases hmem with h | h | h | h | h | h | h | h <;> subst h
  · rw [uftContent_method]
    decide
  · exact hp
  · rw [uftContent_query]
    decide
  · rw [uftContent_authorization]
    decide
  · rw [uftContent_ctype]
    decide
  · rw [uftContent_digest]
    intro hmem
    rcases List.mem_append.mp hmem with h1 | h1
    · revert h1
      decide
    · rcases List.mem_append.mp h1 with h2 | h2
      · exact newline_not_mem_b64encode dig h2
      · revert h2
        decide
  · rw [uftContent_jws]
    show '\n' ∉ ("typ=\"").data ++ ((("JOSE").data ++ ("\"").data) ++ ((", ").data ++
      (("alg=\"").data ++ ((("RS256").data ++ ("\"").data) ++ ((", ").data ++
        (("x5u=\"").data ++ ((cu ++ ("\"").data) ++ ((", ").data ++
          (("kid=\"").data ++ (kid ++ ("\"").data))))))))))
    intro hmem
    rcases List.mem_append.mp hmem with h1 | h1
    · revert h1
      decide
    rcases List.mem_append.mp h1 with h2 | h2
    · revert h2
      decide
    rcases List.mem_append.mp h2 with h3 | h3
    · revert h3
      decide
    rcases List.mem_append.mp h3 with h4 | h4
    · revert h4
      decide
    rcases List.mem_append.mp h4 with h5 | h5
    · revert h5
      decide
    rcases List.mem_append.mp h5 with h6 | h6
    · revert h6
      decide
    rcases List.mem_append.mp h6 with h7 | h7
    · revert h7
      decide
    rcases List.mem_append.mp h7 with h8 | h8
    · rcases List.mem_append.mp h8 with h9 | h9
      · exact hcu h9
      · revert h9
        decide
    rcases List.mem_append.mp h8 with h9 | h9
    · revert h9
      decide
    rcases List.mem_append.mp h9 with h10 | h10
    · revert h10
      decide
    rcases List.mem_append.mp h10 with h11 | h11
    · exact hkid h11
    · revert h11
      decide
  · rw [uftContent_params]
    intro hmem
    rcases List.mem_append.mp hmem with h1 | h1
    · revert h1
      decide
    rcases List.mem_append.mp h1 with h2 | h2
    · revert h2
      decide
    rcases List.mem_append.mp h2 with h3 | h3
    · revert h3
      decide
    · exact newline_not_mem_natToDec created h3

set_option maxRecDepth 8000 in
theorem uftSignatureBase_flat (path cu kid : Str) (dig : List Nat) (created : Nat) :
    uftSignatureBase path (b64encode dig) ⟨("JOSE").data, ("RS256").data, cu, kid⟩ created =
      ("\"@method\": POST\n\"@path\": ").data ++ (path ++
        (("\n\"@query\": ?\n\"authorization\": \n\"content-type\": application/x-www-form-urlencoded\n\"content-digest\": sha-512=:").data ++
          (b64encode dig ++ ((":").data ++
            (("\n\"x-utm-jws-header\": typ=\"JOSE\", alg=\"RS256\", x5u=\"").data ++
              (cu ++ (("\"").data ++ ((", ").data ++ (("kid=\"").data ++
                (kid ++ (("\"").data ++
                  (("\n\"@signature-params\": (\"@method\" \"@path\" \"@query\" \"authorization\" \"content-type\" \"content-digest\" \"x-utm-jws-header\");created=").data ++
                    natToDec created)))))))))))) := by
  have h : uftSignatureBase path (b64encode dig)
      ⟨("JOSE").data, ("RS256").data, cu, kid⟩ created =
      ("\"@method\": POST\n\"@path\": ").data ++ (path ++
        (("\n\"@query\": ?\n\"authorization\": \n\"content-type\": application/x-www-form-urlencoded\n\"content-digest\": sha-512=:").data ++
          ((b64encode dig ++ (":").data) ++
            (("\n\"x-utm-jws-header\": typ=\"JOSE\", alg=\"RS256\", x5u=\"").data ++
              (((cu ++ ("\"").data) ++ ((", ").data ++ (("kid=\"").data ++
                  (kid ++ ("\"").data)))) ++
                (("\n\"@signature-params\": (\"@method\" \"@path\" \"@query\" \"authorization\" \"content-type\" \"content-digest\" \"x-utm-jws-header\");created=").data ++
                  natToDec created)))))) := rfl
  rw [h]
  simp only [List.append_assoc]

/-- C2: the UFT canonical signature base is exactly one `"name": value`
line per component, newline-joined, in the order `@method, @path, @query,
authorization, content-type, content-digest, x-utm-jws-header,
@signature-params`, with the `@signature-params` value
`("<the seven names>");created=<seconds>`; and (for newline-free path,
certificate URL and key id) building the base over any reordering of the
component list yields a different signature base. -/
theorem uft_signature_base_format_and_order (path cu kid : Str) (dig : List Nat)
    (created : Nat) :
    uftSignatureBase path (b64encode dig) ⟨("JOSE").data, ("RS256").data, cu, kid⟩ created =
      ("\"@method\": POST\n\"@path\": ").data ++ (path ++
        (("\n\"@query\": ?\n\"authorization\": \n\"content-type\": application/x-www-form-urlencoded\n\"content-digest\": sha-512=:").data ++
          (b64encode dig ++ ((":").data ++
            (("\n\"x-utm-jws-header\": typ=\"JOSE\", alg=\"RS256\", x5u=\"").data ++
              (cu ++ (("\"").data ++ ((", ").data ++ (("kid=\"").data ++
                (kid ++ (("\"").data ++
                  (("\n\"@signature-params\": (\"@method\" \"@path\" \"@query\" \"authorization\" \"content-type\" \"content-digest\" \"x-utm-jws-header\");created=").data ++
                    natToDec created)))))))))))) ∧
    (∀ l : List Str, l.Perm uftAllComponents → l ≠ uftAllComponents →
      '\n' ∉ path → '\n' ∉ cu → '\n' ∉ kid →
      uftBaseFor (uftSignatureContent path (b64encode dig)
          ⟨("JOSE").data, ("RS256").data, cu, kid⟩ created) l ≠
        uftSignatureBase path (b64encode dig)
          ⟨("JOSE").data, ("RS256").data, cu, kid⟩ created) := by
  refine ⟨uftSignatureBase_flat path cu kid dig created, ?_⟩
  intro l hperm hne hp hcu hkid heq
  have hlen : l.length = uftAllComponents.length := hperm.length_eq
  have hmeml : ∀ x ∈ l, x ∈ uftAllComponents := fun x hx => hperm.mem_iff.mp hx
  have hvnl := uft_content_newline_free path cu kid dig created hp hcu hkid
  have hcnl : ∀ c ∈ uftAllComponents, '\n' ∉ c := by decide
  have hquote : ∀ c ∈ uftAllComponents, '"' ∉ c := by decide
  have hlines1 : ∀ x ∈ (l.map fun c => ("\"").data ++ (c ++ (("\": ").data ++
      uftSignatureContent path (b64encode dig)
        ⟨("JOSE").data, ("RS256").data, cu, kid⟩ created c))), '\n' ∉ x := by
    intro x hx
    rcases List.mem_map.mp hx with ⟨c, hc, rfl⟩
    exact mem_line_newline_free (hcnl c (hmeml c hc)) (hvnl c (hmeml c hc))
  have hlines2 : ∀ x ∈ (uftAllComponents.map fun c => ("\"").data ++ (c ++ (("\": ").data ++
      uftSignatureContent path (b64encode dig)
        ⟨("JOSE").data, ("RS256").data, cu, kid⟩ created c))), '\n' ∉ x := by
    intro x hx
    rcases List.mem_map.mp hx with ⟨c, hc, rfl⟩
    exact mem_line_newline_free (hcnl c hc) (hvnl c hc)
  have hjoin : pyJoin ['\n'] (l.map fun c => ("\"").data ++ (c ++ (("\": ").data ++
      uftSignatureContent path (b64encode dig)
        ⟨("JOSE").data, ("RS256").data, cu, kid⟩ created c))) =
      pyJoin ['\n'] (uftAllComponents.map fun c => ("\"").data ++ (c ++ (("\": ").data ++
      uftSignatureContent path (b64encode dig)
        ⟨("JOSE").data, ("RS256").data, cu, kid⟩ created c))) := heq
  have hmaps := pyJoin_sep_inj '\n' _ _ hlines1 hlines2 (by simpa using hlen) hjoin
  have hleq : l = uftAllComponents := by
    refine map_inj_on _ (fun x => x ∈ uftAllComponents) ?_ l uftAllComponents hmeml
      (fun x hx => hx) hmaps
    intro x y hx hy hl
    exact quoted_line_inj _ x y (hquote x hx) (hquote y hy) hl
  exact hne hleq

theorem uft_signature_base_format_and_order_witness :
    uftBaseFor (uftSignatureContent ("/b").data (b64encode [])
        ⟨("JOSE").data, ("RS256").data, ("https://c/x.der").data, ("k").data⟩ 7)
        (("@path").data :: ("@method").data :: ("@query").data :: ("authorization").data ::
          ("content-type").data :: ("content-digest").data :: ("x-utm-jws-header").data ::
          [("@signature-params").data]) ≠
      uftSignatureBase ("/b").data (b64encode [])
        ⟨("JOSE").data, ("RS256").data, ("https://c/x.der").data, ("k").data⟩ 7 :=
  (uft_signature_base_format_and_order ("/b").data ("https://c/x.der").data ("k").data [] 7).2
    _ (List.Perm.swap _ _ _) (by decide) (by decide) (by decide) (by decide)

end DSS
